import Mathlib

/-!
Verification of the Pallas TPU attention backend
(`vllm/v1/attention/backends/pallas.py`).

The file embeds the backend's pure geometry helpers, the KV-cache writer
and the `forward` orchestration as executable Lean definitions, and proves
the spec's testable properties about them.  Tensors are modelled as nested
lists together with the shape fields the code actually reads; the opaque
`ragged_paged_attention` kernel is a function parameter.
-/

namespace PallasV1

/-- TPU requires the head size to be a multiple of 128
    (`TPU_HEAD_SIZE_ALIGNMENT` in the source). -/
def TPU_HEAD_SIZE_ALIGNMENT : Nat := 128

/-- Modelled from the spec: `vllm.utils.cdiv` is imported by the backend but
    is not under `src/`; the spec's geometry invariant reads
    `physical_width = ceil(native_width / ALIGN) * ALIGN`, so `cdiv` is
    ceiling division on naturals. -/
def cdiv (a b : Nat) : Nat := (a + b - 1) / b

/-- Modelled from the spec: `vllm.utils.next_power_of_2` is imported by the
    backend but is not under `src/`; the spec says "rounded up to the next
    power of two", and `get_min_page_size` inlines the very same
    `1 <<< bitLength (n - 1)` formula.  `Nat.size` is the bit length. -/
def next_power_of_2 (n : Nat) : Nat := 1 <<< Nat.size (n - 1)

/-- `PallasAttentionBackend.get_kv_cache_shape`: pads the head size up to the
    TPU alignment and scales the block count down so total storage does not
    grow.  Returns `(num_blocks', block_size, num_kv_heads * 2, padded)`. -/
def get_kv_cache_shape (num_blocks block_size num_kv_heads head_size : Nat) :
    Nat × Nat × Nat × Nat :=
  let padded_head_size :=
    cdiv head_size TPU_HEAD_SIZE_ALIGNMENT * TPU_HEAD_SIZE_ALIGNMENT
  (num_blocks * head_size / padded_head_size, block_size,
    num_kv_heads * 2, padded_head_size)

/-- `PallasAttentionBackend.get_min_page_size`.  Only the two configuration
    fields the code reads (`max_model_len`, `max_num_seqs`) are passed.
    Python's `//` raises `ZeroDivisionError` on a zero divisor (which happens
    inside `cdiv` whenever `max_num_page_per_req = 0`), so the embedding
    returns `none` in exactly those cases. -/
def get_min_page_size (max_model_len max_num_seqs : Nat) : Option Nat :=
  if max_num_seqs = 0 then none
  else
    let max_num_page_per_req := 1024 * 1024 / 2 / max_num_seqs / 4
    if max_num_page_per_req = 0 then none
    else
      let min_page_size := cdiv max_model_len max_num_page_per_req
      some (1 <<< Nat.size (min_page_size - 1))

/-- `PallasAttentionBackend.get_page_size`: split the max model length into
    roughly 16 pages, clamped into `[16, 256]`. -/
def get_page_size (max_model_len : Nat) : Nat :=
  let page_size := next_power_of_2 max_model_len / 16
  if page_size ≤ 16 then 16
  else if 256 ≤ page_size then 256
  else page_size

/-! ### Arithmetic helper lemmas -/

lemma le_cdiv_mul (s : Nat) : s ≤ cdiv s 128 * 128 := by
  have h1 := Nat.div_add_mod (s + 127) 128
  have h2 : (s + 127) % 128 < 128 := Nat.mod_lt _ (by norm_num)
  unfold cdiv
  omega

lemma cdiv_mul_min {s m : Nat} (hm : 128 ∣ m) (hsm : s ≤ m) :
    cdiv s 128 * 128 ≤ m := by
  obtain ⟨k, rfl⟩ := hm
  have h1 := Nat.div_add_mod (s + 127) 128
  have h2 : (s + 127) % 128 < 128 := Nat.mod_lt _ (by norm_num)
  unfold cdiv
  omega

lemma cdiv_mul_of_dvd {s : Nat} (h : 128 ∣ s) : cdiv s 128 * 128 = s := by
  obtain ⟨k, rfl⟩ := h
  have h1 := Nat.div_add_mod (128 * k + 127) 128
  have h2 : (128 * k + 127) % 128 < 128 := Nat.mod_lt _ (by norm_num)
  unfold cdiv
  omega

lemma next_power_of_2_eq_pow (n : Nat) :
    next_power_of_2 n = 2 ^ Nat.size (n - 1) := by
  unfold next_power_of_2
  rw [Nat.shiftLeft_eq, Nat.one_mul]

lemma le_next_power_of_2 {n : Nat} (hn : 1 ≤ n) : n ≤ next_power_of_2 n := by
  rw [next_power_of_2_eq_pow]
  have := Nat.lt_size_self (n - 1)
  omega

lemma next_power_of_2_min {n k : Nat} (hnk : n ≤ 2 ^ k) :
    next_power_of_2 n ≤ 2 ^ k := by
  rw [next_power_of_2_eq_pow]
  have hp : 0 < 2 ^ k := Nat.two_pow_pos k
  exact Nat.pow_le_pow_right (by norm_num)
    (Nat.size_le.mpr (by omega))

lemma next_power_of_2_mono {m n : Nat} (h : m ≤ n) :
    next_power_of_2 m ≤ next_power_of_2 n := by
  rw [next_power_of_2_eq_pow, next_power_of_2_eq_pow]
  exact Nat.pow_le_pow_right (by norm_num)
    (Nat.size_le_size (by omega))

/-! ### C1: KV-cache shape geometry -/

/-- **C1** (amended): for `0 < head_size`, `get_kv_cache_shape` returns
    `(pageCount', pageSize, 2 * numKvHeads, physicalWidth)` where
    `physicalWidth` is the smallest multiple of 128 that is `≥` the native
    head width, `pageCount' = requestedPageCount * nativeWidth / physicalWidth`
    (floor), `pageCount' * physicalWidth ≤ requestedPageCount * nativeWidth`,
    with equality when the alignment boundary divides the native head width
    (the claim's original direction — the native width dividing the
    boundary — is refuted by `c1_divides_direction_cex`). -/
theorem c1_kv_cache_shape_geometry (n b h s : Nat) (hs : 0 < s) :
    get_kv_cache_shape n b h s =
      (n * s / (cdiv s 128 * 128), b, 2 * h, cdiv s 128 * 128) ∧
    (128 ∣ cdiv s 128 * 128) ∧
    s ≤ cdiv s 128 * 128 ∧
    (∀ m, 128 ∣ m → s ≤ m → cdiv s 128 * 128 ≤ m) ∧
    (n * s / (cdiv s 128 * 128)) * (cdiv s 128 * 128) ≤ n * s ∧
    (128 ∣ s → (n * s / (cdiv s 128 * 128)) * (cdiv s 128 * 128) = n * s) := by
  refine ⟨?_, Dvd.intro_left _ rfl, le_cdiv_mul s,
    fun m hm hsm => cdiv_mul_min hm hsm, Nat.div_mul_le_self _ _, ?_⟩
  · show (n * s / (cdiv s TPU_HEAD_SIZE_ALIGNMENT * TPU_HEAD_SIZE_ALIGNMENT),
      b, h * 2, cdiv s TPU_HEAD_SIZE_ALIGNMENT * TPU_HEAD_SIZE_ALIGNMENT) = _
    rw [Nat.mul_comm h 2]
    rfl
  · intro hdvd
    rw [cdiv_mul_of_dvd hdvd]
    exact Nat.div_mul_cancel (dvd_mul_left _ _)

/-- **C1** counterexample to the claim as stated: with
    `requestedPageCount = 1`, `pageSize = 1`, `numKvHeads = 1` and native
    head width 64, the native width divides the alignment boundary
    (`64 ∣ 128`), yet `pageCount' * physicalWidth = 0 * 128 = 0 ≠ 64 =
    requestedPageCount * nativeWidth`: the claimed equality fails. -/
theorem c1_divides_direction_cex :
    (64 ∣ 128) ∧
    get_kv_cache_shape 1 1 1 64 = (0, 1, 2, 128) ∧
    (get_kv_cache_shape 1 1 1 64).1 * 128 ≠ 1 * 64 := by
  decide

/-- Witness for C1's amended theorem at `n = 3, b = 2, h = 5, s = 200`. -/
theorem c1_kv_cache_shape_geometry_witness :
    get_kv_cache_shape 3 2 5 200 =
      (3 * 200 / (cdiv 200 128 * 128), 2, 2 * 5, cdiv 200 128 * 128) ∧
    (128 ∣ cdiv 200 128 * 128) ∧
    200 ≤ cdiv 200 128 * 128 ∧
    (∀ m, 128 ∣ m → 200 ≤ m → cdiv 200 128 * 128 ≤ m) ∧
    (3 * 200 / (cdiv 200 128 * 128)) * (cdiv 200 128 * 128) ≤ 3 * 200 ∧
    (128 ∣ 200 →
      (3 * 200 / (cdiv 200 128 * 128)) * (cdiv 200 128 * 128) = 3 * 200) :=
  c1_kv_cache_shape_geometry 3 2 5 200 (by decide)

/-! ### C7: minimum page size -/

/-- **C7** (amended): for `1 ≤ maxModelLen` and
    `1 ≤ maxConcurrentSeqs ≤ 131072` (so that
    `maxPagesPerSeq = (1024*1024/2) / (maxConcurrentSeqs * 4) ≥ 1`),
    `get_min_page_size` returns the smallest power of two that is `≥`
    `ceil(maxModelLen / maxPagesPerSeq)`.  For larger `maxConcurrentSeqs`
    the computation divides by zero (see `c7_division_by_zero_cex`). -/
theorem c7_min_page_size_spec (len seqs : Nat) (hlen : 1 ≤ len)
    (hseqs : 1 ≤ seqs) (hub : seqs ≤ 131072) :
    ∃ v, get_min_page_size len seqs = some v ∧
      (∃ k, v = 2 ^ k) ∧
      cdiv len (1024 * 1024 / 2 / (seqs * 4)) ≤ v ∧
      ∀ w, (∃ k, w = 2 ^ k) →
        cdiv len (1024 * 1024 / 2 / (seqs * 4)) ≤ w → v ≤ w := by
  have hqq : 1024 * 1024 / 2 / seqs / 4 = 1024 * 1024 / 2 / (seqs * 4) :=
    Nat.div_div_eq_div_mul _ _ _
  have hq1 : 1 ≤ 1024 * 1024 / 2 / (seqs * 4) :=
    (Nat.one_le_div_iff (by omega)).mpr (by omega)
  have hm1 : 1 ≤ cdiv len (1024 * 1024 / 2 / (seqs * 4)) := by
    unfold cdiv
    exact (Nat.one_le_div_iff (by omega)).mpr (by omega)
  refine ⟨2 ^ Nat.size (cdiv len (1024 * 1024 / 2 / (seqs * 4)) - 1),
    ?_, ⟨_, rfl⟩, ?_, ?_⟩
  · unfold get_min_page_size
    rw [if_neg (by omega), hqq, if_neg (by omega)]
    simp only [Nat.shiftLeft_eq, Nat.one_mul]
  · have := Nat.lt_size_self (cdiv len (1024 * 1024 / 2 / (seqs * 4)) - 1)
    omega
  · rintro w ⟨k, rfl⟩ hw
    exact Nat.pow_le_pow_right (by norm_num) (Nat.size_le.mpr (by omega))

/-- **C7** counterexample to the claim as stated: at
    `maxModelLen = 1, maxConcurrentSeqs = 131073` (both `≥ 1`) the computed
    `maxPagesPerSeq` is `0` and the code raises `ZeroDivisionError` instead
    of returning any page size. -/
theorem c7_division_by_zero_cex :
    1024 * 1024 / 2 / 131073 / 4 = 0 ∧
    get_min_page_size 1 131073 = none := by
  constructor
  · rfl
  · rfl

/-- Witness for C7's amended theorem at `len = 1000, seqs = 64`. -/
theorem c7_min_page_size_spec_witness :
    ∃ v, get_min_page_size 1000 64 = some v ∧
      (∃ k, v = 2 ^ k) ∧
      cdiv 1000 (1024 * 1024 / 2 / (64 * 4)) ≤ v ∧
      ∀ w, (∃ k, w = 2 ^ k) →
        cdiv 1000 (1024 * 1024 / 2 / (64 * 4)) ≤ w → v ≤ w :=
  c7_min_page_size_spec 1000 64 (by decide) (by decide) (by decide)

/-! ### C8: page-size heuristic -/

lemma get_page_size_eq_clamp (m : Nat) :
    get_page_size m = max 16 (min 256 (next_power_of_2 m / 16)) := by
  simp only [get_page_size]
  split
  · omega
  · split <;> omega

/-- **C8**: `get_page_size` is non-decreasing in `maxModelLen` and its
    result always lies in the closed interval `[16, 256]`. -/
theorem c8_page_size_monotone_bounded :
    (∀ m1 m2, m1 ≤ m2 → get_page_size m1 ≤ get_page_size m2) ∧
    (∀ m, 16 ≤ get_page_size m ∧ get_page_size m ≤ 256) := by
  constructor
  · intro m1 m2 h
    rw [get_page_size_eq_clamp, get_page_size_eq_clamp]
    have : next_power_of_2 m1 / 16 ≤ next_power_of_2 m2 / 16 :=
      Nat.div_le_div_right (next_power_of_2_mono h)
    omega
  · intro m
    rw [get_page_size_eq_clamp]
    omega

/-- Witness for C8 at concrete model lengths. -/
theorem c8_page_size_monotone_bounded_witness :
    get_page_size 1000 ≤ get_page_size 100000 ∧
    16 ≤ get_page_size 5000 ∧ get_page_size 5000 ≤ 256 :=
  ⟨c8_page_size_monotone_bounded.1 1000 100000 (by decide),
   (c8_page_size_monotone_bounded.2 5000).1,
   (c8_page_size_monotone_bounded.2 5000).2⟩

/-! ### Tensors as nested lists -/

variable {α β : Type}

/-- Row-major chunking with explicit fuel (structural recursion, so the
    kernel can evaluate it). -/
def chunkAux (p : Nat) : Nat → List α → List (List α)
  | 0, _ => []
  | _ + 1, [] => []
  | fuel + 1, x :: xs => (x :: xs).take p :: chunkAux p fuel ((x :: xs).drop p)

/-- `chunk p xs` splits `xs` into consecutive pieces of length `p` — the
    effect of a trailing reshape axis of width `p`. -/
def chunk (p : Nat) (xs : List α) : List (List α) := chunkAux p xs.length xs

/-- Reshape a flat row-major buffer into `[-1, c, p]`. -/
def reshape3 (c p : Nat) (xs : List α) : List (List (List α)) :=
  chunk c (chunk p xs)

lemma chunkAux_nil (p : Nat) : ∀ n, chunkAux p n ([] : List α) = [] := by
  intro n
  cases n <;> rfl

lemma chunkAux_fuel {p : Nat} (hp : 1 ≤ p) :
    ∀ (m : Nat) (n : Nat) (xs : List α), xs.length ≤ m → xs.length ≤ n →
      chunkAux p m xs = chunkAux p n xs := by
  intro m
  induction m with
  | zero =>
    intro n xs hm _
    have : xs = [] := List.length_eq_zero.mp (Nat.le_zero.mp hm)
    subst this
    rw [chunkAux_nil, chunkAux_nil]
  | succ m ih =>
    intro n xs hm hn
    cases xs with
    | nil => rw [chunkAux_nil, chunkAux_nil]
    | cons x t =>
      cases n with
      | zero => simp at hn
      | succ n =>
        show (x :: t).take p :: chunkAux p m ((x :: t).drop p) =
          (x :: t).take p :: chunkAux p n ((x :: t).drop p)
        have hd : ((x :: t).drop p).length = (x :: t).length - p :=
          List.length_drop _ _
        rw [ih n ((x :: t).drop p) (by simp at hm ⊢; omega)
          (by simp at hn ⊢; omega)]

lemma chunk_nil (p : Nat) : chunk p ([] : List α) = [] := rfl

lemma chunk_cons_of_length_eq {p : Nat} (hp : 1 ≤ p) (l ys : List α)
    (hl : l.length = p) : chunk p (l ++ ys) = l :: chunk p ys := by
  cases l with
  | nil => simp at hl; omega
  | cons a l' =>
    show chunkAux p ((a :: (l' ++ ys)).length) (a :: (l' ++ ys)) = _
    have hlen : (a :: (l' ++ ys)).length = (l'.length + ys.length) + 1 := by
      simp
    rw [hlen]
    show ((a :: l') ++ ys).take p :: chunkAux p (l'.length + ys.length)
      (((a :: l') ++ ys).drop p) = _
    rw [List.take_left' hl, List.drop_left' hl]
    rw [chunkAux_fuel hp (l'.length + ys.length) ys.length ys
      (by omega) (le_refl _)]
    rfl

lemma chunk_flatten {p : Nat} (hp : 1 ≤ p) :
    ∀ (ls : List (List α)), (∀ l ∈ ls, l.length = p) → chunk p ls.flatten = ls := by
  intro ls
  induction ls with
  | nil => intro _; rfl
  | cons l ls ih =>
    intro h
    rw [List.flatten_cons, chunk_cons_of_length_eq hp l ls.flatten
      (h l (List.mem_cons_self _ _))]
    rw [ih (fun x hx => h x (List.mem_cons_of_mem _ hx))]

lemma chunk_append_of_mul {p : Nat} (hp : 1 ≤ p) :
    ∀ (k : Nat) (xs ys : List α), xs.length = p * k →
      chunk p (xs ++ ys) = chunk p xs ++ chunk p ys := by
  intro k
  induction k with
  | zero =>
    intro xs ys hx
    have : xs = [] := List.length_eq_zero.mp (by omega)
    subst this
    simp [chunk_nil]
  | succ k ih =>
    intro xs ys hx
    have hxs : xs = xs.take p ++ xs.drop p := (List.take_append_drop _ _).symm
    have htl : (xs.take p).length = p := by
      rw [List.length_take]
      have hle : p ≤ xs.length := by
        calc p = p * 1 := (Nat.mul_one p).symm
        _ ≤ p * (k + 1) := Nat.mul_le_mul_left p (by omega)
        _ = xs.length := hx.symm
      omega
    have hdl : (xs.drop p).length = p * k := by
      rw [List.length_drop, hx, Nat.mul_succ]
      omega
    calc chunk p (xs ++ ys)
        = chunk p (xs.take p ++ (xs.drop p ++ ys)) := by
          rw [← List.append_assoc, ← hxs]
      _ = xs.take p :: chunk p (xs.drop p ++ ys) :=
          chunk_cons_of_length_eq hp _ _ htl
      _ = xs.take p :: (chunk p (xs.drop p) ++ chunk p ys) := by
          rw [ih (xs.drop p) ys hdl]
      _ = (xs.take p :: chunk p (xs.drop p)) ++ chunk p ys := rfl
      _ = chunk p (xs.take p ++ xs.drop p) ++ chunk p ys := by
          rw [chunk_cons_of_length_eq hp _ _ htl]
      _ = chunk p xs ++ chunk p ys := by rw [← hxs]

/-- Interleave the per-head key and value vectors: even positions hold keys,
    odd positions hold values. -/
def interleaveKV : List (List α) → List (List α) → List (List α)
  | kh :: ks, vh :: vs => kh :: vh :: interleaveKV ks vs
  | _, _ => []

lemma flatten_zipWith_append :
    ∀ (k v : List (List α)),
      (List.zipWith (· ++ ·) k v).flatten = (interleaveKV k v).flatten := by
  intro k
  induction k with
  | nil => intro v; cases v <;> rfl
  | cons kh ks ih =>
    intro v
    cases v with
    | nil => rfl
    | cons vh vs =>
      show ((kh ++ vh) ++ (List.zipWith (· ++ ·) ks vs).flatten) =
        kh ++ (vh ++ (interleaveKV ks vs).flatten)
      rw [ih vs, List.append_assoc]

lemma mem_interleaveKV :
    ∀ (k v : List (List α)) (l : List α),
      l ∈ interleaveKV k v → l ∈ k ∨ l ∈ v := by
  intro k
  induction k with
  | nil => intro v l h; cases v <;> simp [interleaveKV] at h
  | cons kh ks ih =>
    intro v l h
    cases v with
    | nil => simp [interleaveKV] at h
    | cons vh vs =>
      simp only [interleaveKV, List.mem_cons] at h
      rcases h with h | h | h
      · exact Or.inl (by simp [h])
      · exact Or.inr (by simp [h])
      · rcases ih vs l h with h' | h'
        · exact Or.inl (List.mem_cons_of_mem _ h')
        · exact Or.inr (List.mem_cons_of_mem _ h')

lemma length_interleaveKV :
    ∀ (k v : List (List α)), k.length = v.length →
      (interleaveKV k v).length = 2 * k.length := by
  intro k
  induction k with
  | nil => intro v h; cases v <;> simp_all [interleaveKV]
  | cons kh ks ih =>
    intro v h
    cases v with
    | nil => simp at h
    | cons vh vs =>
      show (interleaveKV ks vs).length + 1 + 1 = _
      rw [ih vs (by simpa using h)]
      simp
      omega

lemma length_flatten_of_forall {p : Nat} :
    ∀ (ls : List (List α)), (∀ l ∈ ls, l.length = p) →
      ls.flatten.length = ls.length * p := by
  intro ls
  induction ls with
  | nil => intro _; simp
  | cons l ls ih =>
    intro h
    simp only [List.flatten_cons, List.length_append, List.length_cons]
    rw [ih (fun x hx => h x (List.mem_cons_of_mem _ hx)),
      h l (List.mem_cons_self _ _)]
    ring

lemma chunk_tokflat {p : Nat} (hp : 1 ≤ p) (k v : List (List α))
    (hk : ∀ vec ∈ k, vec.length = p) (hv : ∀ vec ∈ v, vec.length = p) :
    chunk p ((List.zipWith (· ++ ·) k v).flatten) = interleaveKV k v := by
  rw [flatten_zipWith_append]
  exact chunk_flatten hp _ (fun l hl => by
    rcases mem_interleaveKV k v l hl with h | h
    · exact hk l h
    · exact hv l h)

/-- `torch.cat([key, value], axis=-1).reshape(-1, c, p)` equals the per-token
    key/value interleave, for well-shaped inputs. -/
lemma reshape3_cat_eq_interleave {p Hkv : Nat} (hp : 1 ≤ p) (hH : 1 ≤ Hkv) :
    ∀ (key value : List (List (List α))), key.length = value.length →
      (∀ t ∈ key, t.length = Hkv) → (∀ t ∈ key, ∀ vec ∈ t, vec.length = p) →
      (∀ t ∈ value, t.length = Hkv) → (∀ t ∈ value, ∀ vec ∈ t, vec.length = p) →
      reshape3 (2 * Hkv) p
          ((List.zipWith (fun kt vt => (List.zipWith (· ++ ·) kt vt).flatten)
            key value).flatten) =
        List.zipWith interleaveKV key value := by
  intro key
  induction key with
  | nil =>
    intro value h _ _ _ _
    have : value = [] := List.length_eq_zero.mp (by simpa using h.symm)
    subst this
    rfl
  | cons kt ks ih =>
    intro value hlen hkh hkw hvh hvw
    cases value with
    | nil => simp at hlen
    | cons vt vs =>
      have hkt : kt.length = Hkv := hkh kt (List.mem_cons_self _ _)
      have hvt : vt.length = Hkv := hvh vt (List.mem_cons_self _ _)
      have hktw : ∀ vec ∈ kt, vec.length = p :=
        hkw kt (List.mem_cons_self _ _)
      have hvtw : ∀ vec ∈ vt, vec.length = p :=
        hvw vt (List.mem_cons_self _ _)
      have htok : ((List.zipWith (· ++ ·) kt vt).flatten).length = p * (2 * Hkv) := by
        rw [flatten_zipWith_append,
          length_flatten_of_forall (p := p) _ (fun l hl => by
            rcases mem_interleaveKV kt vt l hl with h | h
            · exact hktw l h
            · exact hvtw l h),
          length_interleaveKV kt vt (by omega)]
        rw [hkt]
        ring
      show reshape3 (2 * Hkv) p
          ((List.zipWith (· ++ ·) kt vt).flatten ++
            (List.zipWith (fun kt vt => (List.zipWith (· ++ ·) kt vt).flatten)
              ks vs).flatten) = interleaveKV kt vt :: List.zipWith interleaveKV ks vs
      unfold reshape3
      rw [chunk_append_of_mul hp (2 * Hkv) _ _ htok]
      rw [chunk_tokflat hp kt vt hktw hvtw]
      have hil : (interleaveKV kt vt).length = 2 * Hkv := by
        rw [length_interleaveKV kt vt (by omega), hkt]
      rw [chunk_cons_of_length_eq (by omega) _ _ hil]
      have := ih vs (by simpa using hlen)
        (fun t ht => hkh t (List.mem_cons_of_mem _ ht))
        (fun t ht => hkw t (List.mem_cons_of_mem _ ht))
        (fun t ht => hvh t (List.mem_cons_of_mem _ ht))
        (fun t ht => hvw t (List.mem_cons_of_mem _ ht))
      unfold reshape3 at this
      rw [this]

/-! ### `index_copy_` on the flattened page pool -/

/-- Helper for `indexCopy`, recursing on the index and source lists. -/
def indexCopyAux : List Nat → List β → List β → List β
  | i :: is, r :: rs, rows => indexCopyAux is rs (rows.set i r)
  | _, _, rows => rows

/-- `kv_cache.index_copy_(0, slot_mapping, kv)` on the flattened pool:
    row `slot_mapping[i]` is overwritten with `kv[i]`. -/
def indexCopy (rows : List β) (idx : List Nat) (src : List β) : List β :=
  indexCopyAux idx src rows

lemma indexCopyAux_nil (src rows : List β) :
    indexCopyAux [] src rows = rows := rfl

lemma indexCopyAux_cons_nil (i : Nat) (is : List Nat) (rows : List β) :
    indexCopyAux (i :: is) [] rows = rows := rfl

lemma indexCopyAux_cons_cons (i : Nat) (is : List Nat) (r : β)
    (rs rows : List β) :
    indexCopyAux (i :: is) (r :: rs) rows = indexCopyAux is rs (rows.set i r) :=
  rfl

lemma indexCopy_length :
    ∀ (idx : List Nat) (rows src : List β),
      (indexCopy rows idx src).length = rows.length := by
  unfold indexCopy
  intro idx
  induction idx with
  | nil => intro rows src; rw [indexCopyAux_nil]
  | cons i is ih =>
    intro rows src
    cases src with
    | nil => rw [indexCopyAux_cons_nil]
    | cons r rs =>
      rw [indexCopyAux_cons_cons, ih, List.length_set]

lemma indexCopy_getElem_of_not_mem {j : Nat} :
    ∀ (idx : List Nat) (rows src : List β), j ∉ idx →
      (indexCopy rows idx src)[j]? = rows[j]? := by
  unfold indexCopy
  intro idx
  induction idx with
  | nil => intro rows src _; rw [indexCopyAux_nil]
  | cons i is ih =>
    intro rows src hj
    cases src with
    | nil => rw [indexCopyAux_cons_nil]
    | cons r rs =>
      rw [indexCopyAux_cons_cons,
        ih (rows.set i r) rs (fun h => hj (List.mem_cons_of_mem _ h))]
      exact List.getElem?_set_ne
        (fun h => hj (by rw [← h]; exact List.mem_cons_self _ _))

lemma indexCopy_getElem_self :
    ∀ (idx : List Nat) (rows src : List β) (i : Nat),
      idx.Nodup → (∀ s ∈ idx, s < rows.length) →
      i < idx.length → i < src.length →
      (indexCopy rows idx src)[idx.getD i 0]? = src[i]? := by
  unfold indexCopy
  intro idx
  induction idx with
  | nil => intro rows src i _ _ hi _; simp at hi
  | cons s is ih =>
    intro rows src i hnd hrange hi hsrc
    obtain ⟨hs, hnd'⟩ := List.nodup_cons.mp hnd
    cases src with
    | nil => simp at hsrc
    | cons r rs =>
      cases i with
      | zero =>
        rw [indexCopyAux_cons_cons]
        simp only [List.getD_cons_zero, List.getElem?_cons_zero]
        have hframe := indexCopy_getElem_of_not_mem is (rows.set s r) rs hs
        unfold indexCopy at hframe
        rw [hframe]
        exact List.getElem?_set_self (hrange s (List.mem_cons_self _ _))
      | succ i =>
        rw [indexCopyAux_cons_cons]
        simp only [List.getD_cons_succ, List.getElem?_cons_succ]
        exact ih (rows.set s r) rs i hnd'
          (fun t ht => by
            rw [List.length_set]
            exact hrange t (List.mem_cons_of_mem _ ht))
          (by simpa using hi) (by simpa using hsrc)

lemma zipWith_getElem?_eq {γ : Type} (f : α → β → γ) (d1 : α) (d2 : β) :
    ∀ (l1 : List α) (l2 : List β) (i : Nat), i < l1.length →
      i < l2.length →
      (List.zipWith f l1 l2)[i]? = some (f (l1.getD i d1) (l2.getD i d2)) := by
  intro l1
  induction l1 with
  | nil => intro l2 i hi _; simp at hi
  | cons a l1 ih =>
    intro l2 i hi hi2
    cases l2 with
    | nil => simp at hi2
    | cons b l2 =>
      cases i with
      | zero => simp
      | succ i =>
        simpa using ih l2 i (by simpa using hi) (by simpa using hi2)

/-! ### The page pool and `write_to_kv_cache` -/

/-- The physical KV cache: a torch tensor of shape
    `[num_blocks, block_size, num_kv_heads * 2, head_size]`, carried here as
    its shape fields plus the `flatten(0, 1)` view of its buffer
    (`rows` has `numBlocks * blockSize` entries, each a
    `numCombinedKvHeads × headSize` matrix). -/
structure KVCache (α : Type) where
  numBlocks : Nat
  blockSize : Nat
  numCombinedKvHeads : Nat
  headSize : Nat
  rows : List (List (List α))

/-- `torch.Tensor.numel`: the product of the shape. -/
def KVCache.numel (c : KVCache α) : Nat :=
  c.numBlocks * c.blockSize * c.numCombinedKvHeads * c.headSize

/-- `write_to_kv_cache(key, value, kv_cache, slot_mapping)`: concatenate key
    and value along the last axis, reshape to
    `[-1, num_combined_kv_heads, head_size]`, and scatter the rows into the
    flattened pool at the slots of `slot_mapping`.
    (`dynamo_set_buffer_donor_` is a compiler annotation with no effect on
    the stored values.) -/
def write_to_kv_cache (key value : List (List (List α)))
    (kv_cache : KVCache α) (slot_mapping : List Nat) : KVCache α :=
  let num_combined_kv_heads := kv_cache.numCombinedKvHeads
  let head_size :=
    cdiv kv_cache.headSize TPU_HEAD_SIZE_ALIGNMENT * TPU_HEAD_SIZE_ALIGNMENT
  let kv := reshape3 num_combined_kv_heads head_size
    ((List.zipWith (fun k v => (List.zipWith (· ++ ·) k v).flatten) key value).flatten)
  { kv_cache with rows := indexCopy kv_cache.rows slot_mapping kv }

lemma interleaveKV_getElem :
    ∀ (k v : List (List α)) (h : Nat), k.length = v.length → h < k.length →
      (interleaveKV k v)[2 * h]? = k[h]? ∧
      (interleaveKV k v)[2 * h + 1]? = v[h]? := by
  intro k
  induction k with
  | nil => intro v h _ hh; simp at hh
  | cons kh ks ih =>
    intro v h hlen hh
    cases v with
    | nil => simp at hlen
    | cons vh vs =>
      cases h with
      | zero => constructor <;> simp [interleaveKV]
      | succ h =>
        have prev := ih vs h (by simpa using hlen) (by simpa using hh)
        constructor
        · have h2 : 2 * (h + 1) = 2 * h + 1 + 1 := by ring
          rw [h2]
          show (kh :: vh :: interleaveKV ks vs)[2 * h + 1 + 1]? =
            (kh :: ks)[h + 1]?
          rw [List.getElem?_cons_succ, List.getElem?_cons_succ,
            List.getElem?_cons_succ]
          exact prev.1
        · have h2 : 2 * (h + 1) + 1 = 2 * h + 1 + 1 + 1 := by ring
          rw [h2]
          show (kh :: vh :: interleaveKV ks vs)[2 * h + 1 + 1 + 1]? =
            (vh :: vs)[h + 1]?
          rw [List.getElem?_cons_succ, List.getElem?_cons_succ,
            List.getElem?_cons_succ]
          exact prev.2

/-! ### C2: write/read round trip -/

/-- **C2**: for well-shaped per-token keys/values (already padded to the
    physical head width) and a slot mapping of valid, in-range, pairwise
    distinct slot indices (slot exclusivity within one batch is the caller's
    contract, §5 of the spec), after `write_to_kv_cache` the flattened pool's
    row at `slotMapping[i]` is exactly token `i`'s key/value vectors
    interleaved along the combined kv-head axis, and in that interleaving the
    key of head `h` sits at even index `2h`, the value at odd index `2h+1` —
    reading the pool at the written slot returns the written data
    bit-exactly. -/
theorem c2_write_read_round_trip (key value : List (List (List α)))
    (kvc : KVCache α) (slots : List Nat) (Hkv : Nat)
    (hhs : 1 ≤ kvc.headSize)
    (hcomb : kvc.numCombinedKvHeads = 2 * Hkv)
    (hH : 1 ≤ Hkv)
    (hlen : key.length = value.length)
    (hslots : slots.length = key.length)
    (hkh : ∀ t ∈ key, t.length = Hkv)
    (hkw : ∀ t ∈ key, ∀ vec ∈ t,
      vec.length = cdiv kvc.headSize TPU_HEAD_SIZE_ALIGNMENT *
        TPU_HEAD_SIZE_ALIGNMENT)
    (hvh : ∀ t ∈ value, t.length = Hkv)
    (hvw : ∀ t ∈ value, ∀ vec ∈ t,
      vec.length = cdiv kvc.headSize TPU_HEAD_SIZE_ALIGNMENT *
        TPU_HEAD_SIZE_ALIGNMENT)
    (hrange : ∀ s ∈ slots, s < kvc.rows.length)
    (hnd : slots.Nodup) :
    (∀ i, i < key.length →
      (write_to_kv_cache key value kvc slots).rows[slots.getD i 0]? =
        some (interleaveKV (key.getD i []) (value.getD i []))) ∧
    (∀ (k v : List (List α)) (h : Nat), k.length = v.length → h < k.length →
      (interleaveKV k v)[2 * h]? = k[h]? ∧
      (interleaveKV k v)[2 * h + 1]? = v[h]?) := by
  have hp : 1 ≤ cdiv kvc.headSize TPU_HEAD_SIZE_ALIGNMENT *
      TPU_HEAD_SIZE_ALIGNMENT := le_trans hhs (le_cdiv_mul _)
  have hkvEq : reshape3 kvc.numCombinedKvHeads
      (cdiv kvc.headSize TPU_HEAD_SIZE_ALIGNMENT * TPU_HEAD_SIZE_ALIGNMENT)
      ((List.zipWith (fun k v => (List.zipWith (· ++ ·) k v).flatten)
        key value).flatten) = List.zipWith interleaveKV key value := by
    rw [hcomb]
    exact reshape3_cat_eq_interleave hp hH key value hlen hkh hkw hvh hvw
  refine ⟨?_, interleaveKV_getElem⟩
  intro i hi
  show (indexCopy kvc.rows slots (reshape3 kvc.numCombinedKvHeads
    (cdiv kvc.headSize TPU_HEAD_SIZE_ALIGNMENT * TPU_HEAD_SIZE_ALIGNMENT)
    ((List.zipWith (fun k v => (List.zipWith (· ++ ·) k v).flatten)
      key value).flatten)))[slots.getD i 0]? = _
  rw [hkvEq]
  rw [indexCopy_getElem_self slots kvc.rows _ i hnd hrange (by omega)
    (by rw [List.length_zipWith]; omega)]
  exact zipWith_getElem?_eq interleaveKV [] [] key value i hi (by omega)

set_option maxRecDepth 10000 in
/-- Witness for C2: one token, one kv head, pool of two 2×128 rows,
    written at slot 1. -/
theorem c2_write_read_round_trip_witness :
    (∀ i, i < [[List.replicate 128 (3 : Int)]].length →
      (write_to_kv_cache [[List.replicate 128 (3 : Int)]]
          [[List.replicate 128 (4 : Int)]]
          ⟨1, 2, 2, 128,
            [[List.replicate 128 0, List.replicate 128 0],
             [List.replicate 128 0, List.replicate 128 0]]⟩
          [1]).rows[[1].getD i 0]? =
        some (interleaveKV ([[List.replicate 128 (3 : Int)]].getD i [])
          ([[List.replicate 128 (4 : Int)]].getD i []))) ∧
    (∀ (k v : List (List Int)) (h : Nat), k.length = v.length →
      h < k.length →
      (interleaveKV k v)[2 * h]? = k[h]? ∧
      (interleaveKV k v)[2 * h + 1]? = v[h]?) :=
  c2_write_read_round_trip [[List.replicate 128 (3 : Int)]]
    [[List.replicate 128 (4 : Int)]]
    ⟨1, 2, 2, 128,
      [[List.replicate 128 0, List.replicate 128 0],
       [List.replicate 128 0, List.replicate 128 0]]⟩
    [1] 1 (by decide) (by decide) (by decide) (by decide) (by decide)
    (by decide) (by decide) (by decide) (by decide) (by decide) (by decide)

/-! ### C10: frame property of the cache write -/

/-- **C10**: `write_to_kv_cache` modifies only the pool rows named by the
    slot mapping — every flat row index `j` not occurring in the slot mapping
    holds exactly the same contents after the call as before. -/
theorem c10_write_to_kv_cache_frame (key value : List (List (List α)))
    (kvc : KVCache α) (slots : List Nat) (j : Nat)
    (hrange : ∀ s ∈ slots, s < kvc.rows.length)
    (hj : j ∉ slots) :
    (write_to_kv_cache key value kvc slots).rows[j]? = kvc.rows[j]? := by
  show (indexCopy kvc.rows slots _)[j]? = kvc.rows[j]?
  exact indexCopy_getElem_of_not_mem slots kvc.rows _ hj

/-- Witness for C10: writing at slot 0 leaves row 1 untouched. -/
theorem c10_write_to_kv_cache_frame_witness :
    (write_to_kv_cache [[[ (7 : Int)]]] [[[8]]]
        ⟨1, 2, 2, 1, [[[0], [0]], [[5], [6]]]⟩ [0]).rows[1]? =
      (⟨1, 2, 2, 1, [[[0], [0]], [[5], [6]]]⟩ : KVCache Int).rows[1]? :=
  c10_write_to_kv_cache_frame [[[ (7 : Int)]]] [[[8]]]
    ⟨1, 2, 2, 1, [[[0], [0]], [[5], [6]]]⟩ [0] 1 (by decide) (by decide)

/-! ### The attention implementation -/

/-- `vllm.attention.backends.abstract.AttentionType.DECODER`. -/
def AttentionType.DECODER : String := "decoder"

/-- The configuration stored on `PallasAttentionBackendImpl` by `__init__`. -/
structure PallasImpl where
  num_heads : Nat
  head_size : Nat
  scale : Rat
  num_kv_heads : Nat
  sliding_window : Option Nat
  logits_soft_cap : Option Rat
  kv_sharing_target_layer_name : Option Nat
  num_queries_per_kv : Nat

/-- `PallasAttentionBackendImpl.__init__`, with the construction-time checks
    in source order.  `tpu_version` stands for `torch_xla.tpu.version()`.
    Python's `//` in `num_heads // num_kv_heads` raises `ZeroDivisionError`
    when `num_kv_heads = 0`; that division sits after the block-sparse check
    and before the alibi check, which is where the embedding places the
    corresponding error.  `use_irope` only triggers a warning. -/
def PallasAttentionBackendImpl.init (num_heads head_size : Nat) (scale : Rat)
    (num_kv_heads : Nat) (alibi_slopes : Option (List Rat))
    (sliding_window : Option Nat) (kv_cache_dtype : String)
    (blocksparse_params : Option Unit) (logits_soft_cap : Option Rat)
    (attn_type : String) (kv_sharing_target_layer_name : Option Nat)
    (use_irope : Bool) (tpu_version : Nat) : Except String PallasImpl :=
  if blocksparse_params.isSome then
    .error "Paged attention Pallas kernel does not support block-sparse attention."
  else if num_kv_heads = 0 then
    .error "ZeroDivisionError: integer division or modulo by zero"
  else if alibi_slopes.isSome then
    .error "Alibi slopes is not supported."
  else if kv_cache_dtype ≠ "auto" then
    .error "FP8 KV cache dtype is not supported."
  else if attn_type ≠ AttentionType.DECODER then
    .error "Encoder self-attention and encoder/decoder cross-attention are not implemented for PallasAttentionBackendImpl"
  else if tpu_version < 4 then
    .error "TPU version must be 4 or higher."
  else
    .ok { num_heads := num_heads, head_size := head_size, scale := scale,
          num_kv_heads := num_kv_heads, sliding_window := sliding_window,
          logits_soft_cap := logits_soft_cap,
          kv_sharing_target_layer_name := kv_sharing_target_layer_name,
          num_queries_per_kv := num_heads / num_kv_heads }

/-- `PallasMetadata`: the per-step batch descriptor produced by the
    scheduler. -/
structure PallasMetadata where
  slot_mapping : List Nat
  block_tables : List (List Nat)
  context_lens : List Nat
  query_start_loc : List Nat
  num_seqs : Nat

/-- The per-layer scale factors that `forward` asserts on
    (`layer._k_scale_float`, `layer._v_scale_float`). -/
structure AttentionLayer where
  k_scale_float : Rat
  v_scale_float : Rat

/-- The opaque `torch.ops.xla.ragged_paged_attention` kernel: a pure function
    of the (padded) query, the page pool, the batch descriptor fields, the
    scale, the sliding window and the soft cap, returning a
    `[num_tokens, num_heads, padded_head_size]` tensor. -/
def Kern (α : Type) : Type :=
  List (List (List α)) → KVCache α → List Nat → List (List Nat) →
    List Nat → Nat → Rat → Option Nat → Option Rat → List (List (List α))

/-- `torch.ones_like(query)`. -/
def ones_like [One α] (t : List (List α)) : List (List α) :=
  t.map (fun row => row.map (fun _ => 1))

/-- `torch.nn.functional.pad(t, (0, n), value=0.0)`: zero-pad the trailing
    axis of a `[tokens, heads, width]` tensor by `n` zeros. -/
def padLast [Zero α] (n : Nat) (t : List (List (List α))) :
    List (List (List α)) :=
  t.map (fun row => row.map (fun vec => vec ++ List.replicate n 0))

/-- The trailing component of a 2-D tensor's shape (all rows of a real
    tensor are equal-length; the code reads `query.shape`). -/
def width (t : List (List α)) : Nat := (t.headD []).length

/-- `PallasAttentionBackendImpl.forward`.  Returns the produced output (or
    the raised error) together with the page pool after the call; the opaque
    attention kernel is a function argument.  `output` is the optional
    preallocated output buffer and `output_scale` the unsupported
    fused-quantization argument.  Reshapes (`view`) are chunkings of the
    row-major buffer; the final `reshape(num_tokens, hidden_size)` is
    `chunk hidden_size` of the flattened kernel output. -/
def forward [Zero α] [One α] (impl : PallasImpl) (kern : Kern α)
    (layer : AttentionLayer) (query key value : List (List α))
    (kv_cache : KVCache α) (attn_metadata : PallasMetadata)
    (output : Option (List (List α))) (output_scale : Option (List Rat)) :
    Except String (List (List α)) × KVCache α :=
  if output_scale.isSome then
    (.error "fused output quantization is not yet supported for PallasAttentionBackendImpl",
      kv_cache)
  else if kv_cache.numel = 0 then
    -- For determine_available_memory case.
    (.ok (output.getD (ones_like query)), kv_cache)
  else if ¬ (layer.k_scale_float = 1 ∧ layer.v_scale_float = 1) then
    (.error "AssertionError: k_scale and v_scale must be 1.0", kv_cache)
  else
    let hidden_size := width query
    let q0 := reshape3 impl.num_heads impl.head_size query.flatten
    let k0 := reshape3 impl.num_kv_heads impl.head_size key.flatten
    let v0 := reshape3 impl.num_kv_heads impl.head_size value.flatten
    let padded_head_size :=
      cdiv impl.head_size TPU_HEAD_SIZE_ALIGNMENT * TPU_HEAD_SIZE_ALIGNMENT
    let q1 := if impl.head_size % TPU_HEAD_SIZE_ALIGNMENT ≠ 0 then
        padLast (padded_head_size - impl.head_size) q0 else q0
    let k1 := if impl.head_size % TPU_HEAD_SIZE_ALIGNMENT ≠ 0 then
        padLast (padded_head_size - impl.head_size) k0 else k0
    let v1 := if impl.head_size % TPU_HEAD_SIZE_ALIGNMENT ≠ 0 then
        padLast (padded_head_size - impl.head_size) v0 else v0
    let kv_cache1 :=
      if impl.kv_sharing_target_layer_name = none ∧ 0 < kv_cache.numel then
        write_to_kv_cache k1 v1 kv_cache attn_metadata.slot_mapping
      else kv_cache
    let out0 := kern q1 kv_cache1 attn_metadata.context_lens
      attn_metadata.block_tables attn_metadata.query_start_loc
      attn_metadata.num_seqs impl.scale impl.sliding_window
      impl.logits_soft_cap
    let out1 := if impl.head_size % TPU_HEAD_SIZE_ALIGNMENT ≠ 0 then
        out0.map (fun r => r.map (fun vec => vec.take impl.head_size))
      else out0
    (.ok (chunk hidden_size (out1.map List.flatten).flatten), kv_cache1)

/-! ### C3: zero-capacity pool (memory-probe degenerate case) -/

/-- **C3**: with a zero-capacity page pool and no per-call error
    (`output_scale` absent, no preallocated output buffer), `forward`
    returns the all-ones placeholder with exactly the query's shape, leaves
    the page pool untouched, and never invokes the attention kernel: the
    result is identical for every kernel. -/
theorem c3_zero_capacity_probe [Zero α] [One α] (impl : PallasImpl)
    (kern : Kern α) (layer : AttentionLayer)
    (query key value : List (List α)) (kv_cache : KVCache α)
    (meta : PallasMetadata)
    (hnumel : kv_cache.numel = 0) :
    forward impl kern layer query key value kv_cache meta none none =
      (.ok (ones_like query), kv_cache) ∧
    (ones_like query).length = query.length ∧
    (∀ i : Nat, ((ones_like query)[i]?).map List.length =
      (query[i]?).map List.length) ∧
    (∀ kern' : Kern α,
      forward impl kern' layer query key value kv_cache meta none none =
        forward impl kern layer query key value kv_cache meta none none) := by
  have hmain : ∀ kern'' : Kern α,
      forward impl kern'' layer query key value kv_cache meta none none =
        (.ok (ones_like query), kv_cache) := by
    intro kern''
    unfold forward
    rw [if_neg (by simp), if_pos hnumel]
    rfl
  refine ⟨hmain kern, by simp [ones_like], ?_,
    fun kern' => (hmain kern').trans (hmain kern).symm⟩
  intro i
  unfold ones_like
  rw [List.getElem?_map]
  cases query[i]? <;> simp

/-- Witness for C3 at a concrete zero-capacity pool. -/
theorem c3_zero_capacity_probe_witness :
    forward ⟨1, 1, 1, 1, none, none, none, 1⟩
        (fun q _ _ _ _ _ _ _ _ => q) ⟨1, 1⟩ [[(5 : Int)]] [[6]] [[7]]
        ⟨0, 0, 0, 0, []⟩ ⟨[], [], [], [], 0⟩ none none =
      (.ok (ones_like [[(5 : Int)]]), ⟨0, 0, 0, 0, []⟩) ∧
    (ones_like [[(5 : Int)]]).length = [[(5 : Int)]].length ∧
    (∀ i : Nat, ((ones_like [[(5 : Int)]])[i]?).map List.length =
      ([[(5 : Int)]][i]?).map List.length) ∧
    (∀ kern' : Kern Int,
      forward ⟨1, 1, 1, 1, none, none, none, 1⟩ kern' ⟨1, 1⟩
          [[(5 : Int)]] [[6]] [[7]] ⟨0, 0, 0, 0, []⟩ ⟨[], [], [], [], 0⟩
          none none =
        forward ⟨1, 1, 1, 1, none, none, none, 1⟩
          (fun q _ _ _ _ _ _ _ _ => q) ⟨1, 1⟩ [[(5 : Int)]] [[6]] [[7]]
          ⟨0, 0, 0, 0, []⟩ ⟨[], [], [], [], 0⟩ none none) :=
  c3_zero_capacity_probe ⟨1, 1, 1, 1, none, none, none, 1⟩
    (fun q _ _ _ _ _ _ _ _ => q) ⟨1, 1⟩ [[(5 : Int)]] [[6]] [[7]]
    ⟨0, 0, 0, 0, []⟩ ⟨[], [], [], [], 0⟩ (by decide)

/-! ### C4: KV-sharing layers never write the pool -/

/-- **C4**: a layer constructed with a KV-sharing source layer
    (`kv_sharing_target_layer_name` set) performs no cache write: whatever
    the inputs and whichever path `forward` takes, the page pool coming out
    is exactly the pool passed in. -/
theorem c4_kv_sharing_skips_write [Zero α] [One α]
    (num_heads head_size : Nat) (scale : Rat) (num_kv_heads : Nat)
    (alibi : Option (List Rat)) (sw : Option Nat) (dtype : String)
    (bsp : Option Unit) (cap : Option Rat) (attn_type : String)
    (shared_name : Nat) (use_irope : Bool) (tpu_version : Nat)
    (impl : PallasImpl)
    (hinit : PallasAttentionBackendImpl.init num_heads head_size scale
      num_kv_heads alibi sw dtype bsp cap attn_type (some shared_name)
      use_irope tpu_version = .ok impl)
    (kern : Kern α) (layer : AttentionLayer)
    (query key value : List (List α)) (kv_cache : KVCache α)
    (meta : PallasMetadata) (output : Option (List (List α)))
    (output_scale : Option (List Rat)) :
    (forward impl kern layer query key value kv_cache meta output
      output_scale).2 = kv_cache := by
  have hshare : impl.kv_sharing_target_layer_name = some shared_name := by
    unfold PallasAttentionBackendImpl.init at hinit
    split_ifs at hinit
    all_goals simp at hinit
    exact hinit ▸ rfl
  unfold forward
  split
  · rfl
  split
  · rfl
  split
  · rfl
  · show (if impl.kv_sharing_target_layer_name = none ∧ 0 < kv_cache.numel
      then write_to_kv_cache _ _ kv_cache meta.slot_mapping
      else kv_cache) = kv_cache
    rw [if_neg (by simp [hshare])]

/-- Witness for C4 at a concrete sharing layer and nonempty pool. -/
theorem c4_kv_sharing_skips_write_witness :
    (forward ⟨8, 96, 1, 8, none, none, some 3, 1⟩
      (fun q _ _ _ _ _ _ _ _ => q) ⟨1, 1⟩ [[(5 : Int)]] [[6]] [[7]]
      ⟨1, 2, 2, 1, [[[0], [0]], [[5], [6]]]⟩ ⟨[0], [], [], [], 0⟩
      none none).2 = ⟨1, 2, 2, 1, [[[0], [0]], [[5], [6]]]⟩ :=
  c4_kv_sharing_skips_write 8 96 1 8 none none "auto" none none
    AttentionType.DECODER 3 false 4 ⟨8, 96, 1, 8, none, none, some 3, 1⟩
    rfl (fun q _ _ _ _ _ _ _ _ => q) ⟨1, 1⟩ [[(5 : Int)]] [[6]] [[7]]
    ⟨1, 2, 2, 1, [[[0], [0]], [[5], [6]]]⟩ ⟨[0], [], [], [], 0⟩ none none

/-! ### C9: per-call errors happen before any cache mutation -/

/-- **C9**: whenever `forward` raises a per-call error — in particular when
    the unsupported fused output-scaling argument is supplied — the error is
    raised before any cache mutation: the page pool after the failed call is
    exactly the pool passed in. -/
theorem c9_error_preserves_pool [Zero α] [One α] (impl : PallasImpl)
    (kern : Kern α) (layer : AttentionLayer)
    (query key value : List (List α)) (kv_cache : KVCache α)
    (meta : PallasMetadata) (output : Option (List (List α)))
    (output_scale : Option (List Rat)) :
    (∀ msg, (forward impl kern layer query key value kv_cache meta output
        output_scale).1 = .error msg →
      (forward impl kern layer query key value kv_cache meta output
        output_scale).2 = kv_cache) ∧
    (output_scale.isSome → ∃ msg,
      (forward impl kern layer query key value kv_cache meta output
        output_scale).1 = .error msg ∧
      (forward impl kern layer query key value kv_cache meta output
        output_scale).2 = kv_cache) := by
  constructor
  · intro msg
    unfold forward
    split
    · intro _; rfl
    split
    · intro h; exact absurd h (by simp)
    split
    · intro _; rfl
    · intro h; exact absurd h (by simp)
  · intro hsome
    unfold forward
    rw [if_pos hsome]
    exact ⟨_, rfl, rfl⟩

/-- Witness for C9: a call with `output_scale` supplied fails and leaves the
    pool intact. -/
theorem c9_error_preserves_pool_witness :
    (∀ msg, (forward ⟨1, 1, 1, 1, none, none, none, 1⟩
        (fun q _ _ _ _ _ _ _ _ => q) ⟨1, 1⟩ [[(5 : Int)]] [[6]] [[7]]
        ⟨1, 2, 2, 1, [[[0], [0]], [[5], [6]]]⟩ ⟨[0], [], [], [], 0⟩
        none (some [1])).1 = .error msg →
      (forward ⟨1, 1, 1, 1, none, none, none, 1⟩
        (fun q _ _ _ _ _ _ _ _ => q) ⟨1, 1⟩ [[(5 : Int)]] [[6]] [[7]]
        ⟨1, 2, 2, 1, [[[0], [0]], [[5], [6]]]⟩ ⟨[0], [], [], [], 0⟩
        none (some [1])).2 = ⟨1, 2, 2, 1, [[[0], [0]], [[5], [6]]]⟩) ∧
    ((some [(1 : Rat)]).isSome → ∃ msg,
      (forward ⟨1, 1, 1, 1, none, none, none, 1⟩
        (fun q _ _ _ _ _ _ _ _ => q) ⟨1, 1⟩ [[(5 : Int)]] [[6]] [[7]]
        ⟨1, 2, 2, 1, [[[0], [0]], [[5], [6]]]⟩ ⟨[0], [], [], [], 0⟩
        none (some [1])).1 = .error msg ∧
      (forward ⟨1, 1, 1, 1, none, none, none, 1⟩
        (fun q _ _ _ _ _ _ _ _ => q) ⟨1, 1⟩ [[(5 : Int)]] [[6]] [[7]]
        ⟨1, 2, 2, 1, [[[0], [0]], [[5], [6]]]⟩ ⟨[0], [], [], [], 0⟩
        none (some [1])).2 = ⟨1, 2, 2, 1, [[[0], [0]], [[5], [6]]]⟩) :=
  c9_error_preserves_pool ⟨1, 1, 1, 1, none, none, none, 1⟩
    (fun q _ _ _ _ _ _ _ _ => q) ⟨1, 1⟩ [[(5 : Int)]] [[6]] [[7]]
    ⟨1, 2, 2, 1, [[[0], [0]], [[5], [6]]]⟩ ⟨[0], [], [], [], 0⟩
    none (some [1])

/-! ### C6: the supported-configuration gate -/

/-- **C6**: for a meaningful head count (`1 ≤ num_kv_heads`), construction
    of the implementation fails exactly when one of the rejected
    configurations holds — alibi slopes, block-sparse parameters, a KV-cache
    dtype other than `"auto"`, an attention type other than decoder
    self-attention, or a TPU generation below 4.  The check lives in the
    constructor; no per-call check re-does it: `forward` succeeds for every
    input whenever its own two per-call conditions (no fused output scale,
    unit k/v scales) hold, regardless of configuration. -/
theorem c6_construction_gate (num_heads head_size : Nat) (scale : Rat)
    (num_kv_heads : Nat) (alibi : Option (List Rat)) (sw : Option Nat)
    (dtype : String) (bsp : Option Unit) (cap : Option Rat)
    (attn_type : String) (shared : Option Nat) (use_irope : Bool)
    (tpu_version : Nat) (hkv : 1 ≤ num_kv_heads) :
    ((∃ impl, PallasAttentionBackendImpl.init num_heads head_size scale
        num_kv_heads alibi sw dtype bsp cap attn_type shared use_irope
        tpu_version = .ok impl) ↔
      ¬ (alibi.isSome = true ∨ bsp.isSome = true ∨ dtype ≠ "auto" ∨
         attn_type ≠ AttentionType.DECODER ∨ tpu_version < 4)) ∧
    (∀ (α : Type) [Zero α] [One α] (impl : PallasImpl) (kern : Kern α)
      (layer : AttentionLayer) (query key value : List (List α))
      (kvc : KVCache α) (meta : PallasMetadata)
      (output : Option (List (List α))),
      layer.k_scale_float = 1 → layer.v_scale_float = 1 →
      ∃ out, (forward impl kern layer query key value kvc meta output
        none).1 = .ok out) := by
  constructor
  · unfold PallasAttentionBackendImpl.init
    split_ifs with h1 h2 h3 h4 h5 h6
    · simp [h1]
    · exact absurd h2 (by omega)
    · simp [h3]
    · simp [h1, h4]
    · simp [h5]
    · simp [h6]
    · simp [h1, h3, h4, h5, h6]
  · intro β _ _ impl kern layer query key value kvc meta output hk hv
    unfold forward
    rw [if_neg (by simp)]
    split
    · exact ⟨_, rfl⟩
    · rw [if_neg (by simp [hk, hv])]
      exact ⟨_, rfl⟩

/-- Witness for C6: a valid configuration constructs, and a concrete
    `forward` call with the per-call conditions met succeeds. -/
theorem c6_construction_gate_witness :
    (∃ impl, PallasAttentionBackendImpl.init 8 96 1 8 none none "auto"
      none none AttentionType.DECODER none false 4 = .ok impl) ∧
    (∃ out, (forward ⟨1, 1, 1, 1, none, none, none, 1⟩
      (fun q _ _ _ _ _ _ _ _ => q) ⟨1, 1⟩ [[(5 : Int)]] [[6]] [[7]]
      ⟨0, 0, 0, 0, []⟩ ⟨[], [], [], [], 0⟩ none none).1 = .ok out) :=
  ⟨(c6_construction_gate 8 96 1 8 none none "auto" none none
      AttentionType.DECODER none false 4 (by decide)).1.mpr (by simp),
   (c6_construction_gate 8 96 1 8 none none "auto" none none
      AttentionType.DECODER none false 4 (by decide)).2 Int
      ⟨1, 1, 1, 1, none, none, none, 1⟩ (fun q _ _ _ _ _ _ _ _ => q)
      ⟨1, 1⟩ [[(5 : Int)]] [[6]] [[7]] ⟨0, 0, 0, 0, []⟩
      ⟨[], [], [], [], 0⟩ none rfl rfl⟩

/-! ### C5: alignment padding and symmetric un-padding -/

/-- **C5**: when the head width is not a multiple of the 128-element
    alignment boundary, `forward` zero-pads the trailing dimension of query,
    key and value up to the physical width (the padding value exactly `0`)
    before the cache write and the kernel call — the cache write receives the
    padded key/value, the kernel receives the padded query — and slices the
    kernel output back to the native head width, so that (for a well-shaped
    query and a kernel honouring its output-shape contract) the returned
    tensor has shape `[numTokens, numHeads * headWidth]`. -/
theorem c5_alignment_padding [Zero α] [One α] (impl : PallasImpl)
    (kern : Kern α) (layer : AttentionLayer)
    (query key value : List (List α)) (kv_cache : KVCache α)
    (meta : PallasMetadata) (output : Option (List (List α)))
    (hpad : impl.head_size % TPU_HEAD_SIZE_ALIGNMENT ≠ 0)
    (hk1 : layer.k_scale_float = 1) (hv1 : layer.v_scale_float = 1)
    (hnumel : kv_cache.numel ≠ 0)
    (hshare : impl.kv_sharing_target_layer_name = none)
    (hq : ∀ r ∈ query, r.length = impl.num_heads * impl.head_size)
    (hhs : 1 ≤ impl.head_size) (hnh : 1 ≤ impl.num_heads) :
    let pad := cdiv impl.head_size TPU_HEAD_SIZE_ALIGNMENT *
      TPU_HEAD_SIZE_ALIGNMENT
    let qPad := padLast (pad - impl.head_size)
      (reshape3 impl.num_heads impl.head_size query.flatten)
    let kPad := padLast (pad - impl.head_size)
      (reshape3 impl.num_kv_heads impl.head_size key.flatten)
    let vPad := padLast (pad - impl.head_size)
      (reshape3 impl.num_kv_heads impl.head_size value.flatten)
    let pool := write_to_kv_cache kPad vPad kv_cache meta.slot_mapping
    let out := kern qPad pool meta.context_lens meta.block_tables
      meta.query_start_loc meta.num_seqs impl.scale impl.sliding_window
      impl.logits_soft_cap
    (out.length = query.length ∧
      ∀ r ∈ out, r.length = impl.num_heads ∧ ∀ vec ∈ r, vec.length = pad) →
    (qPad = (reshape3 impl.num_heads impl.head_size query.flatten).map
        (fun row => row.map
          (fun vec => vec ++ List.replicate (pad - impl.head_size) (0 : α))) ∧
      forward impl kern layer query key value kv_cache meta output none =
        (.ok (out.map
          (fun r => (r.map (fun vec => vec.take impl.head_size)).flatten)),
          pool) ∧
      (out.map
        (fun r => (r.map (fun vec => vec.take impl.head_size)).flatten)).length
        = query.length ∧
      (∀ row ∈ out.map
          (fun r => (r.map (fun vec => vec.take impl.head_size)).flatten),
        row.length = impl.num_heads * impl.head_size)) := by
  intro pad qPad kPad vPad pool out hkern
  obtain ⟨hlen, hrows⟩ := hkern
  have hhspad : impl.head_size ≤ pad := le_cdiv_mul impl.head_size
  have hmap : ((out.map
      (fun r => r.map (fun vec => vec.take impl.head_size))).map
        List.flatten) = out.map
      (fun r => (r.map (fun vec => vec.take impl.head_size)).flatten) := by
    rw [List.map_map]
    rfl
  have hrowlen : ∀ row ∈ out.map
      (fun r => (r.map (fun vec => vec.take impl.head_size)).flatten),
      row.length = impl.num_heads * impl.head_size := by
    intro row hrow
    obtain ⟨r, hr, rfl⟩ := List.mem_map.mp hrow
    have h1 : ∀ v ∈ r.map (fun vec => vec.take impl.head_size),
        v.length = impl.head_size := by
      intro v hv
      obtain ⟨vec, hvec, rfl⟩ := List.mem_map.mp hv
      rw [List.length_take, (hrows r hr).2 vec hvec]
      omega
    rw [length_flatten_of_forall _ h1, List.length_map, (hrows r hr).1]
  have hchunk : chunk (width query)
      ((out.map
        (fun r => (r.map (fun vec => vec.take impl.head_size)).flatten)).flatten)
      = out.map
        (fun r => (r.map (fun vec => vec.take impl.head_size)).flatten) := by
    cases hq0 : query with
    | nil =>
      have hout0 : out = [] := List.length_eq_zero.mp (by rw [hlen, hq0]; rfl)
      rw [hout0]
      rfl
    | cons r0 rest =>
      have hw : width (r0 :: rest) = impl.num_heads * impl.head_size := by
        show r0.length = _
        exact hq r0 (by rw [hq0]; exact List.mem_cons_self _ _)
      rw [hw]
      exact chunk_flatten (Nat.mul_pos hnh hhs) _ hrowlen
  refine ⟨rfl, ?_, by rw [List.length_map]; exact hlen, hrowlen⟩
  have hstep : forward impl kern layer query key value kv_cache meta output
      none = (.ok (chunk (width query)
        (((out.map (fun r => r.map (fun vec => vec.take impl.head_size))).map
          List.flatten).flatten)), pool) := by
    unfold forward
    rw [if_neg (by simp), if_neg hnumel, if_neg (by simp [hk1, hv1])]
    simp only [if_pos hpad,
      if_pos (show impl.kv_sharing_target_layer_name = none ∧
        0 < kv_cache.numel from ⟨hshare, Nat.pos_of_ne_zero hnumel⟩)]
  rw [hstep, hmap, hchunk]

set_option maxRecDepth 10000 in
/-- Witness for C5: one token, one head of native width 1 (padded to 128),
    identity kernel. -/
theorem c5_alignment_padding_witness :
    let pad := cdiv 1 TPU_HEAD_SIZE_ALIGNMENT * TPU_HEAD_SIZE_ALIGNMENT
    let qPad := padLast (pad - 1) (reshape3 1 1 [[(2 : Int)]].flatten)
    let kPad := padLast (pad - 1) (reshape3 1 1 [[(3 : Int)]].flatten)
    let vPad := padLast (pad - 1) (reshape3 1 1 [[(4 : Int)]].flatten)
    let pool := write_to_kv_cache kPad vPad
      ⟨1, 1, 2, 128, [[List.replicate 128 0, List.replicate 128 0]]⟩ [0]
    let out := (fun q _ _ _ _ _ _ _ _ => q : Kern Int) qPad pool [] [] [] 0
      1 none none
    (qPad = (reshape3 1 1 [[(2 : Int)]].flatten).map
        (fun row => row.map
          (fun vec => vec ++ List.replicate (pad - 1) (0 : Int))) ∧
      forward ⟨1, 1, 1, 1, none, none, none, 1⟩
        (fun q _ _ _ _ _ _ _ _ => q) ⟨1, 1⟩ [[(2 : Int)]] [[3]] [[4]]
        ⟨1, 1, 2, 128, [[List.replicate 128 0, List.replicate 128 0]]⟩
        ⟨[0], [], [], [], 0⟩ none none =
        (.ok (out.map (fun r => (r.map (fun vec => vec.take 1)).flatten)),
          pool) ∧
      (out.map
        (fun r => (r.map (fun vec => vec.take 1)).flatten)).length =
        [[(2 : Int)]].length ∧
      (∀ row ∈ out.map (fun r => (r.map (fun vec => vec.take 1)).flatten),
        row.length = 1 * 1)) :=
  c5_alignment_padding ⟨1, 1, 1, 1, none, none, none, 1⟩
    (fun q _ _ _ _ _ _ _ _ => q) ⟨1, 1⟩ [[(2 : Int)]] [[3]] [[4]]
    ⟨1, 1, 2, 128, [[List.replicate 128 0, List.replicate 128 0]]⟩
    ⟨[0], [], [], [], 0⟩ none (by decide) rfl rfl (by decide) rfl
    (by decide) (by decide) (by decide) (by decide)

end PallasV1
